import Mathlib

/-!
Verification of the core parsing/transformation engine of the dkb2actual
repository (DKB bank CSV exports → Actual Budget transactions).

The definitions below are a shallow embedding of the repository's source:
JavaScript strings are Lean `String`s; the JavaScript numbers that carry
parsed decimal amounts are rationals `ℚ` (each DKB amount string denotes a
decimal that is handled exactly by the code's arithmetic — `value * 100`,
`Math.round` — so the rational model is faithful on the inputs considered);
thrown `Error`s are modelled with `Except String`.  External library
behaviour (`csv-parse`, `node:crypto` SHA-256, JS built-ins such as
`parseFloat`, `trim`, `toUpperCase`, `padStart`) is embedded from its
documented semantics, restricted where noted to the scope the repository
exercises.
-/

namespace Dkb2Actual

/-- Equality of `Except` results is decidable componentwise; used to settle
concrete pipeline runs by `decide`. -/
instance {ε α : Type} [DecidableEq ε] [DecidableEq α] : DecidableEq (Except ε α) := fun x y =>
  match x, y with
  | .ok a, .ok b =>
    if h : a = b then .isTrue (by rw [h]) else .isFalse (by simp [h])
  | .error e, .error e2 =>
    if h : e = e2 then .isTrue (by rw [h]) else .isFalse (by simp [h])
  | .ok _, .error _ => .isFalse (by simp)
  | .error _, .ok _ => .isFalse (by simp)

/-- Whitespace recognised by the JavaScript string `trim` built-in
(ASCII scope: space, tab, LF, VT, FF, CR; DKB fields contain no exotic
Unicode whitespace). -/
def isWsChar (c : Char) : Bool :=
  decide (c.toNat = 32 ∨ c.toNat = 9 ∨ c.toNat = 10 ∨
          c.toNat = 11 ∨ c.toNat = 12 ∨ c.toNat = 13)

/-- Strip leading and trailing whitespace from a character list. -/
def trimList (l : List Char) : List Char :=
  ((l.dropWhile isWsChar).reverse.dropWhile isWsChar).reverse

/-- JavaScript `s.trim()`. -/
def jsTrim (s : String) : String := String.mk (trimList s.data)

/-- JavaScript upper-casing of one character (ASCII scope; IBANs and the
strings in all concrete inputs below are ASCII). -/
def upChar (c : Char) : Char :=
  if 97 ≤ c.toNat ∧ c.toNat ≤ 122 then Char.ofNat (c.toNat - 32) else c

/-- JavaScript `s.toUpperCase()` (ASCII scope). -/
def upStr (s : String) : String := String.mk (s.data.map upChar)

/-- JavaScript `a || b` on strings: `b` exactly when `a` is falsy (empty). -/
def jsOr (a b : String) : String := if a = "" then b else a

/-- JavaScript `s.padStart(n, "0")`. -/
def padStartZero (s : String) (n : Nat) : String :=
  String.mk (List.replicate (n - s.length) '0' ++ s.data)

/-- Split a character list at every occurrence of `sep`; the JavaScript
`s.split(sep)` for a one-character separator (the source only ever splits on
`"."`, `"\n"` and `";"`).  Always returns at least one (possibly empty)
group. -/
def splitOnChar : List Char → Char → List (List Char)
  | [], _ => [[]]
  | c :: rest, sep =>
    match splitOnChar rest sep with
    | [] => [[]]
    | g :: gs => if c = sep then [] :: g :: gs else (c :: g) :: gs

/-- JavaScript `s.split(sep)` for a one-character separator. -/
def jsSplit (s : String) (sep : Char) : List String :=
  (splitOnChar s.data sep).map String.mk

/-- JavaScript `parts.join(sep)` — also the rejoining
`lines.slice(4).join("\n")` performed by `parseDkbCsv`. -/
def joinWith (sep : String) : List String → String
  | [] => ""
  | [x] => x
  | x :: y :: xs => x ++ sep ++ joinWith sep (y :: xs)

/-- Base-10 value of a digit-character list. -/
def digitsToNat (l : List Char) : Nat :=
  l.foldl (fun acc c => 10 * acc + (c.toNat - 48)) 0

/-- Exponent factor of a JavaScript float literal suffix: optional sign and
digits after `e`/`E`; factor `1` when no digits follow (`parseFloat` then
stops before the `e`). -/
def expFactor (l : List Char) : ℚ :=
  let (neg, l) := match l with
    | '-' :: rest => (true, rest)
    | '+' :: rest => (false, rest)
    | rest => (false, rest)
  let ds := l.takeWhile Char.isDigit
  if ds.isEmpty then 1
  else if neg then 1 / (10 : ℚ) ^ digitsToNat ds
  else (10 : ℚ) ^ digitsToNat ds

/-- JavaScript `parseFloat`, modelled exactly on rationals: skip leading
whitespace, optional sign, then the longest decimal-literal prefix (integer
digits, optional `.` fraction, optional exponent); `none` models `NaN`.
(`Infinity` literals never occur in amount strings and are not modelled.) -/
def jsParseFloat (s : String) : Option ℚ :=
  let l := s.data.dropWhile isWsChar
  let (sgn, l) : ℚ × List Char := match l with
    | '-' :: rest => (-1, rest)
    | '+' :: rest => (1, rest)
    | rest => (1, rest)
  let intDigits := l.takeWhile Char.isDigit
  let l := l.drop intDigits.length
  let (fracDigits, l) : List Char × List Char := match l with
    | '.' :: rest => (rest.takeWhile Char.isDigit,
                      rest.drop (rest.takeWhile Char.isDigit).length)
    | rest => ([], rest)
  if intDigits.isEmpty ∧ fracDigits.isEmpty then none
  else
    let mant : ℚ :=
      (digitsToNat intDigits : ℚ) +
        (digitsToNat fracDigits : ℚ) / (10 : ℚ) ^ fracDigits.length
    let e : ℚ := match l with
      | 'e' :: rest => expFactor rest
      | 'E' :: rest => expFactor rest
      | _ => 1
    some (sgn * mant * e)

/-- Remove every occurrence of `.` — JavaScript `value.replace(/\./g, "")`. -/
def removeDots (l : List Char) : List Char := l.filter (fun c => c ≠ '.')

/-- Replace the first occurrence of `a` by `b` — JavaScript
`value.replace(",", ".")` replaces only the first match. -/
def replaceFirst (l : List Char) (a b : Char) : List Char :=
  match l with
  | [] => []
  | c :: rest => if c = a then b :: rest else c :: replaceFirst rest a b

/-- Source `parseGermanDecimal`: strip the thousands separators `.`, turn the
(first) decimal comma into `.`, and `parseFloat`; throws when the result is
`NaN`. -/
def parseGermanDecimal (value : String) : Except String ℚ :=
  let cleaned := String.mk (replaceFirst (removeDots value.data) ',' '.')
  match jsParseFloat cleaned with
  | none => .error s!"Cannot parse amount: \"{value}\""
  | some num => .ok num

/-- Source `parseGermanDate`: split on `.`, require exactly three components,
map a two-digit year `yy` to `20yy`, and emit `yyyy-mm-dd` with the month and
day left-padded to two digits. -/
def parseGermanDate (value : String) : Except String String :=
  let parts := jsSplit value '.'
  if parts.length ≠ 3 then .error s!"Cannot parse date: \"{value}\""
  else
    match parts with
    | [dd, mm, yy] =>
      let yyyy := if yy.length = 2 then "20" ++ yy else yy
      .ok s!"{yyyy}-{padStartZero mm 2}-{padStartZero dd 2}"
    | _ => .error s!"Cannot parse date: \"{value}\""

/-- Source `amountToInteger`: `Math.round(value * 100)`.  JavaScript
`Math.round` returns the nearest integer, resolving ties toward `+∞`, which
on exact rationals is `⌊x + 1/2⌋`. -/
def amountToInteger (value : ℚ) : ℤ := (value * 100 + 1 / 2).floor

/-!
SHA-256, embedded from FIPS 180-4 — the semantics of
`createHash("sha256").update(raw).digest("hex")` from `node:crypto`.
Thirty-two-bit words are naturals reduced mod `2 ^ 32`; messages are byte
lists.  Strings are fed to the hash as their UTF-8 bytes, matching Node's
default encoding for `update`.
-/

/-- UTF-8 encoding of one scalar value. -/
def utf8Char (c : Char) : List Nat :=
  let n := c.toNat
  if n < 128 then [n]
  else if n < 2048 then [192 + n / 64, 128 + n % 64]
  else if n < 65536 then [224 + n / 4096, 128 + n / 64 % 64, 128 + n % 64]
  else [240 + n / 262144, 128 + n / 4096 % 64, 128 + n / 64 % 64, 128 + n % 64]

/-- UTF-8 bytes of a string. -/
def utf8Bytes (s : String) : List Nat := s.data.flatMap utf8Char

/-- `2 ^ 32`, the word modulus. -/
def M32 : Nat := 4294967296

/-- Right-rotation of a 32-bit word. -/
def rotr (n x : Nat) : Nat := x / 2 ^ n + x % 2 ^ n * 2 ^ (32 - n)

/-- Logical right shift. -/
def shr (n x : Nat) : Nat := x / 2 ^ n

/-- FIPS 180-4 `Ch`. -/
def chFun (e f g : Nat) : Nat := (e &&& f) ^^^ ((e ^^^ (M32 - 1)) &&& g)

/-- FIPS 180-4 `Maj`. -/
def majFun (a b c : Nat) : Nat := (a &&& b) ^^^ (a &&& c) ^^^ (b &&& c)

/-- FIPS 180-4 `σ₀`. -/
def ssig0 (x : Nat) : Nat := rotr 7 x ^^^ rotr 18 x ^^^ shr 3 x

/-- FIPS 180-4 `σ₁`. -/
def ssig1 (x : Nat) : Nat := rotr 17 x ^^^ rotr 19 x ^^^ shr 10 x

/-- FIPS 180-4 `Σ₀`. -/
def bsig0 (x : Nat) : Nat := rotr 2 x ^^^ rotr 13 x ^^^ rotr 22 x

/-- FIPS 180-4 `Σ₁`. -/
def bsig1 (x : Nat) : Nat := rotr 6 x ^^^ rotr 11 x ^^^ rotr 25 x

/-- The 64 SHA-256 round constants (FIPS 180-4 §4.2.2, written in
decimal). -/
def K256 : List Nat :=
  [1116352408, 1899447441, 3049323471, 3921009573,
   961987163, 1508970993, 2453635748, 2870763221,
   3624381080, 310598401, 607225278, 1426881987,
   1925078388, 2162078206, 2614888103, 3248222580,
   3835390401, 4022224774, 264347078, 604807628,
   770255983, 1249150122, 1555081692, 1996064986,
   2554220882, 2821834349, 2952996808, 3210313671,
   3336571891, 3584528711, 113926993, 338241895,
   666307205, 773529912, 1294757372, 1396182291,
   1695183700, 1986661051, 2177026350, 2456956037,
   2730485921, 2820302411, 3259730800, 3345764771,
   3516065817, 3600352804, 4094571909, 275423344,
   430227734, 506948616, 659060556, 883997877,
   958139571, 1322822218, 1537002063, 1747873779,
   1955562222, 2024104815, 2227730452, 2361852424,
   2428436474, 2756734187, 3204031479, 3329325298]

/-- An eight-word SHA-256 state. -/
structure H8 where
  a : Nat
  b : Nat
  c : Nat
  d : Nat
  e : Nat
  f : Nat
  g : Nat
  h : Nat

/-- The SHA-256 initial hash value (FIPS 180-4 §5.3.3, in decimal). -/
def initH256 : H8 :=
  ⟨1779033703, 3144134277, 1013904242, 2773480762,
   1359893119, 2600822924, 528734635, 1541459225⟩

/-- Extend a message schedule by `n` further words. -/
def schedExtend (ws : List Nat) : Nat → List Nat
  | 0 => ws
  | n + 1 =>
    let k := ws.length
    let w := (ssig1 (ws.getD (k - 2) 0) + ws.getD (k - 7) 0 +
              ssig0 (ws.getD (k - 15) 0) + ws.getD (k - 16) 0) % M32
    schedExtend (ws ++ [w]) n

/-- One SHA-256 round. -/
def round256 (st : H8) (kw : Nat × Nat) : H8 :=
  let t1 := (st.h + bsig1 st.e + chFun st.e st.f st.g + kw.1 + kw.2) % M32
  let t2 := (bsig0 st.a + majFun st.a st.b st.c) % M32
  ⟨(t1 + t2) % M32, st.a, st.b, st.c, (st.d + t1) % M32, st.e, st.f, st.g⟩

/-- Compress one 64-byte block into the running state. -/
def compress256 (st : H8) (block : List Nat) : H8 :=
  let ws0 := (List.range 16).map fun i =>
    block.getD (4 * i) 0 * 16777216 + block.getD (4 * i + 1) 0 * 65536 +
      block.getD (4 * i + 2) 0 * 256 + block.getD (4 * i + 3) 0
  let ws := schedExtend ws0 48
  let u := (K256.zip ws).foldl round256 st
  ⟨(st.a + u.a) % M32, (st.b + u.b) % M32, (st.c + u.c) % M32,
   (st.d + u.d) % M32, (st.e + u.e) % M32, (st.f + u.f) % M32,
   (st.g + u.g) % M32, (st.h + u.h) % M32⟩

/-- FIPS 180-4 padding: `0x80`, zeros to 56 mod 64, then the bit length as
eight big-endian bytes. -/
def padMessage (msg : List Nat) : List Nat :=
  let len := msg.length
  let zeros := (64 - (len + 9) % 64) % 64
  let bl := len * 8
  msg ++ 128 :: List.replicate zeros 0 ++
    [bl / 2 ^ 56 % 256, bl / 2 ^ 48 % 256, bl / 2 ^ 40 % 256, bl / 2 ^ 32 % 256,
     bl / 2 ^ 24 % 256, bl / 2 ^ 16 % 256, bl / 2 ^ 8 % 256, bl % 256]

/-- Fold the compression function over consecutive 64-byte blocks (the fuel
argument is instantiated with the padded length, which bounds the number of
blocks). -/
def processBlocks : Nat → H8 → List Nat → H8
  | _, st, [] => st
  | 0, st, _ => st
  | fuel + 1, st, bs => processBlocks fuel (compress256 st (bs.take 64)) (bs.drop 64)

/-- The SHA-256 digest of a byte list, as eight 32-bit words. -/
def sha256Words (msg : List Nat) : H8 :=
  let p := padMessage msg
  processBlocks p.length initH256 p

/-- Lower-case hexadecimal digit for `n < 16`. -/
def hexDigit (n : Nat) : Char :=
  if n < 10 then Char.ofNat (48 + n) else Char.ofNat (87 + n)

/-- The eight hex characters of a 32-bit word, most significant first. -/
def toHex8 (w : Nat) : List Char :=
  [hexDigit (w / 268435456 % 16), hexDigit (w / 16777216 % 16),
   hexDigit (w / 1048576 % 16), hexDigit (w / 65536 % 16),
   hexDigit (w / 4096 % 16), hexDigit (w / 256 % 16),
   hexDigit (w / 16 % 16), hexDigit (w % 16)]

/-- The 64 hex characters of `digest("hex")`. -/
def sha256HexChars (msg : List Nat) : List Char :=
  let d := sha256Words msg
  toHex8 d.a ++ toHex8 d.b ++ toHex8 d.c ++ toHex8 d.d ++
    toHex8 d.e ++ toHex8 d.f ++ toHex8 d.g ++ toHex8 d.h

/-- `createHash("sha256").update(s).digest("hex")` for a string `s`. -/
def sha256Hex (s : String) : String := String.mk (sha256HexChars (utf8Bytes s))

/-!
The data model of the source.  Field names follow the source's `DkbRawRow`,
transliterated where Lean identifiers cannot carry `*`, `(€)`, `-` or `ä`:
`Zahlungspflichtige_r` is the source's `"Zahlungspflichtige*r"` (payer),
`Zahlungsempfaenger_in` is `"Zahlungsempfänger*in"` (recipient), `Betrag` is
`"Betrag (€)"` (amount), `GlaeubigerID` is `"Gläubiger-ID"`.  A field that is
absent in a short CSV row (`undefined` in JavaScript) is modelled as the
empty string: every access the source performs (`!x`, `x || y`,
`x?.trim() ?? ""`) treats `undefined` and `""` identically.
-/

/-- Raw row as parsed from the DKB CSV. -/
structure DkbRawRow where
  Buchungsdatum : String
  Wertstellung : String
  Status : String
  Zahlungspflichtige_r : String
  Zahlungsempfaenger_in : String
  Verwendungszweck : String
  Umsatztyp : String
  IBAN : String
  Betrag : String
  GlaeubigerID : String
  Mandatsreferenz : String
  Kundenreferenz : String
deriving DecidableEq

/-- Transaction in the format expected by Actual Budget's
`importTransactions` (`amount` is an integer in minor units). -/
structure ActualTransaction where
  account : String
  date : String
  amount : ℤ
  payee_name : String
  imported_payee : String
  notes : String
  imported_id : String
  cleared : Bool
deriving DecidableEq

/-- Source `generateImportedId`: the first 32 hex characters of the SHA-256
hash of `"{date}|{amount}|{payee}|{notes}"`.  The function is declared with
exactly these four parameters; the call site in the source passes a fifth
argument (the trimmed `Kundenreferenz`), which JavaScript parameter binding
silently discards, so it is not a parameter here. -/
def generateImportedId (date : String) (amount : ℤ) (payee : String)
    (notes : String) : String :=
  let raw := s!"{date}|{amount}|{payee}|{notes}"
  String.mk ((sha256HexChars (utf8Bytes raw)).take 32)

/-- Source `getOpposingName`: outgoing amounts name the recipient, incoming
amounts the payer, each falling back to the other field via JavaScript `||`,
and finally to `""`. -/
def getOpposingName (row : DkbRawRow) (amount : ℚ) : String :=
  if amount < 0 then
    jsOr row.Zahlungsempfaenger_in (jsOr row.Zahlungspflichtige_r "")
  else
    jsOr row.Zahlungspflichtige_r (jsOr row.Zahlungsempfaenger_in "")

/-!
The loop body of `transformToActualTransactions` binds a cascade of `const`s
before pushing one transaction.  Those bindings are factored into named
definitions below (their bodies are the source expressions verbatim) so that
the theorems can speak about the intermediate values; the loop itself is the
recursion `transformToActualTransactions`.
-/

/-- The `counterpartIban` binding: `row.IBAN?.trim() ?? ""`. -/
def counterpartIbanOf (row : DkbRawRow) : String := jsTrim row.IBAN

/-- The `isOwnAccount` binding:
`counterpartIban !== "" && ownIbans.includes(counterpartIban)`. -/
def isOwnAccount (row : DkbRawRow) (ownIbans : List String) : Bool :=
  counterpartIbanOf row ≠ "" && ownIbans.contains (counterpartIbanOf row)

/-- The `payeeName` binding: the upper-cased counterpart IBAN for transfers
between own accounts, otherwise the opposing party name. -/
def resolvePayeeName (row : DkbRawRow) (ownIbans : List String)
    (amountFloat : ℚ) : String :=
  if isOwnAccount row ownIbans then upStr (counterpartIbanOf row)
  else getOpposingName row amountFloat

/-- The `importedPayee` binding:
`counterpartIban ? `${payeeName} (${counterpartIban})` : payeeName`. -/
def importedPayeeOf (row : DkbRawRow) (payeeName : String) : String :=
  let counterpartIban := counterpartIbanOf row
  if counterpartIban ≠ "" then s!"{payeeName} ({counterpartIban})"
  else payeeName

/-- The transaction object pushed for one row, given the parsed amount and
date. -/
def mkTransaction (row : DkbRawRow) (actualAccountId : String)
    (ownIbans : List String) (amountFloat : ℚ) (date : String) :
    ActualTransaction :=
  let amount := amountToInteger amountFloat
  let notes := jsOr row.Verwendungszweck ""
  let payeeName := resolvePayeeName row ownIbans amountFloat
  let importedPayee := importedPayeeOf row payeeName
  { account := actualAccountId
    date := date
    amount := amount
    payee_name := jsTrim payeeName
    imported_payee := jsTrim importedPayee
    notes := notes
    imported_id := generateImportedId date amount payeeName notes
    cleared := true }

/-- The skip guard of the loop:
`if (!amountRaw || !row.Buchungsdatum) continue;`. -/
def skipRow (row : DkbRawRow) : Bool :=
  row.Betrag = "" || row.Buchungsdatum = ""

/-- Source `transformToActualTransactions`: the per-row loop.  A thrown parse
error aborts the whole call (the JavaScript exception discards the partially
built array), hence the `Except`. -/
def transformToActualTransactions (rows : List DkbRawRow)
    (actualAccountId : String) (ownIbans : List String := []) :
    Except String (List ActualTransaction) :=
  match rows with
  | [] => .ok []
  | row :: rest =>
    if skipRow row then
      transformToActualTransactions rest actualAccountId ownIbans
    else do
      let amountFloat ← parseGermanDecimal row.Betrag
      let date ← parseGermanDate row.Buchungsdatum
      let tx := mkTransaction row actualAccountId ownIbans amountFloat date
      let txs ← transformToActualTransactions rest actualAccountId ownIbans
      return tx :: txs

/-!
`parseDkbCsv`: the source drops the first four lines of the file and hands
the rejoined remainder to `csv-parse` with
`{ columns: true, delimiter: ";", skip_empty_lines: true,
relax_column_count: true }`.  The scanners below embed the library's
documented behaviour for exactly this option set (record delimiter LF;
quote character `"` with its defaults, since `relax_quotes` is not set):
a field beginning with `"` is quoted, may contain delimiters and newlines
literally, and escapes a quote by doubling it; a quote inside an unquoted
field, a closing quote followed by anything but a delimiter, newline or end
of input, and a quote left unclosed at end of input are errors, as in the
library (the error strings here abbreviate the library's messages).
`skip_empty_lines` drops zero-character lines; the first remaining record's
fields become the column names; each later record is keyed by those names
(`relax_column_count`: missing trailing fields default to the empty string,
extra fields are dropped).  The rows are returned as header-keyed
association lists.
-/

/-- Scan the body of a quoted field (the opening quote already consumed):
a doubled quote is a literal quote, the next single quote closes the field,
and end of input before the closing quote is the library's unclosed-quote
error. -/
def scanQuoted : List Char → List Char → Except String (List Char × List Char)
  | _, [] => .error "Quote Not Closed"
  | acc, '\"' :: '\"' :: rest => scanQuoted (acc ++ ['\"']) rest
  | acc, '\"' :: rest => .ok (acc, rest)
  | acc, c :: rest => scanQuoted (acc ++ [c]) rest

/-- Scan an unquoted field up to (not consuming) the next delimiter or
newline; a quote character inside the field is the library's
invalid-opening-quote error (`relax_quotes` is not set). -/
def scanUnquoted : List Char → List Char → Except String (List Char × List Char)
  | acc, [] => .ok (acc, [])
  | acc, c :: rest =>
    if c = ';' || c = '\n' then .ok (acc, c :: rest)
    else if c = '\"' then .error "Invalid Opening Quote"
    else scanUnquoted (acc ++ [c]) rest

/-- Scan one field: quoted when it begins with a quote — in which case the
closing quote must be followed by a delimiter, a newline or the end of
input — otherwise unquoted. -/
def scanOneField : List Char → Except String (List Char × List Char)
  | '\"' :: rest => do
    let (fld, rest2) ← scanQuoted [] rest
    match rest2 with
    | [] => .ok (fld, [])
    | c :: rest3 =>
      if c = ';' || c = '\n' then .ok (fld, c :: rest3)
      else .error "Invalid Closing Quote"
  | cs => scanUnquoted [] cs

/-- Scan the fields of one record, consuming its terminating newline when
present.  The fuel argument bounds the number of fields; the callers pass
at least the remaining character count, which suffices since every
separator consumes a character. -/
def scanRecordFields : Nat → List Char → Except String (List String × List Char)
  | 0, cs => .ok ([], cs)
  | fuel + 1, cs => do
    let (fld, rest) ← scanOneField cs
    match rest with
    | ';' :: rest2 => do
      let (flds, rest3) ← scanRecordFields fuel rest2
      .ok (String.mk fld :: flds, rest3)
    | '\n' :: rest2 => .ok ([String.mk fld], rest2)
    | _ => .ok ([String.mk fld], rest)

/-- Scan all records: a zero-character line produces no record
(`skip_empty_lines`), end of input after the last newline produces no
record, and every other line starts a record.  The fuel bounds the number
of records and skipped lines; the entry point passes the character count
plus one, which suffices since every record or skipped line consumes a
character. -/
def scanRecords : Nat → List Char → Except String (List (List String))
  | _, [] => .ok []
  | 0, _ => .ok []
  | fuel + 1, '\n' :: rest => scanRecords fuel rest
  | fuel + 1, cs => do
    let (flds, rest) ← scanRecordFields fuel cs
    let more ← scanRecords fuel rest
    .ok (flds :: more)

/-- The `csv-parse` call of the source, for its exact option set (see the
section comment above): scan the records, take the first as the column
names, and key every later record by them. -/
def csvParse (content : String) :
    Except String (List (List (String × String))) := do
  let recs ← scanRecords (content.data.length + 1) content.data
  match recs with
  | [] => .ok []
  | header :: dataRows =>
    .ok (dataRows.map fun fields =>
      (List.range header.length).map fun i =>
        (header.getD i "", fields.getD i ""))

/-- Source `parseDkbCsv`, applied to the file content: skip the first four
lines (`content.split("\n")`, `lines.slice(4)`, rejoined with `"\n"`), then
`csv-parse`. -/
def parseDkbCsv (content : String) :
    Except String (List (List (String × String))) :=
  let lines := jsSplit content '\n'
  let csvWithoutHeader := joinWith "\n" (lines.drop 4)
  csvParse csvWithoutHeader

/-- Modelled from the spec's words for comparison with the source's
`amountToInteger` (spec §4.2: "multiply the floating value by 100 and round
to the nearest integer (ties away from zero)").  This is the claimed
rounding mode, not the source's. -/
def specToMinorUnits (value : ℚ) : ℤ :=
  if 0 ≤ value then (value * 100 + 1 / 2).floor
  else -(((-(value * 100)) + 1 / 2).floor)

/-- Hexadecimal digit characters `0`-`9`, `a`-`f`. -/
def isHexDigitChar (c : Char) : Bool :=
  ('0' ≤ c && c ≤ '9') || ('a' ≤ c && c ≤ 'f')

/-- A row with all fields empty; the concrete rows of the witnesses and
counterexamples below override the fields they need. -/
def sampleRow : DkbRawRow :=
  { Buchungsdatum := "", Wertstellung := "", Status := "",
    Zahlungspflichtige_r := "", Zahlungsempfaenger_in := "",
    Verwendungszweck := "", Umsatztyp := "", IBAN := "",
    Betrag := "", GlaeubigerID := "", Mandatsreferenz := "",
    Kundenreferenz := "" }

/-- A concrete parsing row: booked 05.03.24, amount 5,00 €, payer Alice,
purpose x. -/
def aliceRow : DkbRawRow :=
  { sampleRow with
    Buchungsdatum := "05.03.24"
    Betrag := "5,00"
    Zahlungspflichtige_r := "Alice"
    Verwendungszweck := "x" }

/-- The same row with a trailing space in the payer field: its payee name
trims to the same string but hashes differently. -/
def aliceRowTrailingSpace : DkbRawRow :=
  { aliceRow with Zahlungspflichtige_r := "Alice " }

/-!
Helper lemmas shared by the claim theorems below.
-/

/-- `amountToInteger` in terms of the mathematical floor. -/
theorem amountToInteger_eq_floor (value : ℚ) :
    amountToInteger value = ⌊value * 100 + 1 / 2⌋ := by
  show (value * 100 + 1 / 2).floor = _
  rw [Rat.floor_def', Rat.floor_def]

/-- The hash input template literal, as plain concatenation. -/
theorem generateImportedId_eq (date : String) (amount : ℤ)
    (payee notes : String) :
    generateImportedId date amount payee notes =
      String.mk ((sha256HexChars (utf8Bytes
        (date ++ "|" ++ toString amount ++ "|" ++ payee ++ "|" ++
          notes))).take 32) := by
  have h : (s!"{date}|{amount}|{payee}|{notes}" : String) =
      date ++ "|" ++ toString amount ++ "|" ++ payee ++ "|" ++ notes := by
    have ts : ∀ s : String, toString s = s := fun _ => rfl
    apply String.ext
    simp [ts]
  show String.mk ((sha256HexChars (utf8Bytes
    (s!"{date}|{amount}|{payee}|{notes}"))).take 32) = _
  rw [h]

/-- The hex rendering of the digest always has 64 characters. -/
theorem sha256HexChars_length (msg : List Nat) :
    (sha256HexChars msg).length = 64 := by
  unfold sha256HexChars toHex8
  simp

/-- Every character of a word's hex rendering is a hex digit. -/
theorem mem_toHex8_hex {c : Char} {w : Nat} (h : c ∈ toHex8 w) :
    isHexDigitChar c = true := by
  have h16 : ∀ m : Nat, m < 16 → isHexDigitChar (hexDigit m) = true := by
    intro m hm
    interval_cases m <;> rfl
  unfold toHex8 at h
  simp only [List.mem_cons, List.mem_singleton, List.not_mem_nil, or_false] at h
  rcases h with h | h | h | h | h | h | h | h <;>
    (subst h; exact h16 _ (Nat.mod_lt _ (by norm_num)))

/-- Every character of the hex digest is a hex digit. -/
theorem mem_sha256HexChars_hex {c : Char} {msg : List Nat}
    (h : c ∈ sha256HexChars msg) : isHexDigitChar c = true := by
  unfold sha256HexChars at h
  simp only [List.mem_append] at h
  rcases h with ((((((h | h) | h) | h) | h) | h) | h) | h <;>
    exact mem_toHex8_hex h

/-- `Char.ofNat` at a valid codepoint round-trips through `toNat`. -/
theorem char_toNat_ofNat {n : Nat} (h : n.isValidChar) :
    (Char.ofNat n).toNat = n := by
  rw [Char.ofNat, dif_pos h]
  rfl

/-- ASCII upper-casing maps whitespace to whitespace and non-whitespace to
non-whitespace. -/
theorem isWsChar_upChar (c : Char) : isWsChar (upChar c) = isWsChar c := by
  unfold upChar
  split
  · next h =>
    have hv : (c.toNat - 32).isValidChar := Or.inl (by omega)
    unfold isWsChar
    rw [char_toNat_ofNat hv]
    exact decide_eq_decide.mpr (by omega)
  · rfl

/-- `trimList` is left-trim followed by Mathlib's right-trim. -/
theorem trimList_eq (l : List Char) :
    trimList l = List.rdropWhile isWsChar (List.dropWhile isWsChar l) := rfl

/-- A trimmed list has no leading whitespace. -/
theorem dropWhile_trimList (l : List Char) :
    List.dropWhile isWsChar (trimList l) = trimList l := by
  cases h : trimList l with
  | nil => simp
  | cons a t =>
    obtain ⟨u, hu⟩ :
        List.dropWhile isWsChar ((List.dropWhile isWsChar l).reverse)
          <:+ (List.dropWhile isWsChar l).reverse :=
      List.dropWhile_suffix isWsChar
    have hd : List.dropWhile isWsChar l = (a :: t) ++ u.reverse := by
      have h2 := congrArg List.reverse hu
      simp only [List.reverse_append, List.reverse_reverse] at h2
      rw [← h2, ← h]
      rfl
    have hne : List.dropWhile isWsChar l ≠ [] := by
      rw [hd]; simp
    have hhead := List.head_dropWhile_not isWsChar l hne
    have ha : (List.dropWhile isWsChar l).head hne = a := by
      simp [hd]
    rw [ha] at hhead
    simp [List.dropWhile_cons, hhead]

/-- A trimmed list has no trailing whitespace. -/
theorem rdropWhile_trimList (l : List Char) :
    List.rdropWhile isWsChar (trimList l) = trimList l := by
  rw [trimList_eq]
  exact List.rdropWhile_idempotent _ _

/-- Trimming is idempotent. -/
theorem trimList_trimList (l : List Char) :
    trimList (trimList l) = trimList l := by
  rw [trimList_eq (trimList l), dropWhile_trimList]
  exact rdropWhile_trimList l

/-- Trimming commutes with ASCII upper-casing. -/
theorem trimList_map_upChar (l : List Char) :
    trimList (l.map upChar) = (trimList l).map upChar := by
  have hcomp : (isWsChar ∘ upChar) = isWsChar := funext fun c => isWsChar_upChar c
  simp only [trimList, List.dropWhile_map, hcomp, ← List.map_reverse]

/-- An already-trimmed string stays trimmed after upper-casing, so the final
`payeeName.trim()` of the source is a no-op on the masked IBAN branch. -/
theorem jsTrim_upStr_jsTrim (s : String) :
    jsTrim (upStr (jsTrim s)) = upStr (jsTrim s) := by
  show String.mk (trimList ((trimList s.data).map upChar)) =
    String.mk ((trimList s.data).map upChar)
  rw [trimList_map_upChar, trimList_trimList]

/-- A skipped row contributes nothing to the loop. -/
theorem transform_cons_skip {row : DkbRawRow} (rest : List DkbRawRow)
    (acc : String) (own : List String) (h : skipRow row = true) :
    transformToActualTransactions (row :: rest) acc own =
      transformToActualTransactions rest acc own := by
  simp [transformToActualTransactions, h]

/-- A row that parses contributes exactly its transaction to the loop. -/
theorem transform_cons_ok {row : DkbRawRow} {f : ℚ} {d : String}
    (rest : List DkbRawRow) (acc : String) (own : List String)
    (hskip : skipRow row = false)
    (hf : parseGermanDecimal row.Betrag = .ok f)
    (hd : parseGermanDate row.Buchungsdatum = .ok d) :
    transformToActualTransactions (row :: rest) acc own =
      (transformToActualTransactions rest acc own).map
        (fun txs => mkTransaction row acc own f d :: txs) := by
  rw [transformToActualTransactions, if_neg (by simp [hskip])]
  show Bind.bind (parseGermanDecimal row.Betrag) _ = _
  rw [hf]
  show Bind.bind (parseGermanDate row.Buchungsdatum) _ = _
  rw [hd]
  show Bind.bind (transformToActualTransactions rest acc own) _ = _
  cases transformToActualTransactions rest acc own <;> rfl

/-- The transform of a single parsing row. -/
theorem transform_singleton {row : DkbRawRow} {f : ℚ} {d : String}
    (acc : String) (own : List String)
    (hskip : skipRow row = false)
    (hf : parseGermanDecimal row.Betrag = .ok f)
    (hd : parseGermanDate row.Buchungsdatum = .ok d) :
    transformToActualTransactions [row] acc own =
      .ok [mkTransaction row acc own f d] := by
  rw [transform_cons_ok [] acc own hskip hf hd]
  rfl

/-- The `imported_id` field of the pushed transaction. -/
theorem mkTransaction_imported_id (row : DkbRawRow) (acc : String)
    (own : List String) (f : ℚ) (d : String) :
    (mkTransaction row acc own f d).imported_id =
      generateImportedId d (amountToInteger f)
        (resolvePayeeName row own f) (jsOr row.Verwendungszweck "") := rfl

/-- The `payee_name` field of the pushed transaction. -/
theorem mkTransaction_payee_name (row : DkbRawRow) (acc : String)
    (own : List String) (f : ℚ) (d : String) :
    (mkTransaction row acc own f d).payee_name =
      jsTrim (resolvePayeeName row own f) := rfl

/-- The `imported_payee` field of the pushed transaction. -/
theorem mkTransaction_imported_payee (row : DkbRawRow) (acc : String)
    (own : List String) (f : ℚ) (d : String) :
    (mkTransaction row acc own f d).imported_payee =
      jsTrim (importedPayeeOf row (resolvePayeeName row own f)) := rfl

/-- The `amount` field of the pushed transaction. -/
theorem mkTransaction_amount (row : DkbRawRow) (acc : String)
    (own : List String) (f : ℚ) (d : String) :
    (mkTransaction row acc own f d).amount = amountToInteger f := rfl

/-- A leading newline is a zero-character line: the scanner drops it
(`skip_empty_lines`) and parses the remainder unchanged. -/
theorem csvParse_newline_cons (s : String) :
    csvParse ("\n" ++ s) = csvParse s := by
  cases s
  rfl

/-- An empty first line before rejoining is dropped by `skip_empty_lines`:
parsing continues with the remaining lines. -/
theorem csvParse_cons_empty_line (rest : List String) :
    csvParse (joinWith "\n" ("" :: rest)) = csvParse (joinWith "\n" rest) := by
  cases rest with
  | nil => rfl
  | cons y ys => exact csvParse_newline_cons (joinWith "\n" (y :: ys))

/-- The model keeps the library's quote-error path: an unclosed quote after
the four skipped lines makes `parseDkbCsv` fail, as `csv-parse` does with
`relax_quotes` unset. -/
theorem parseDkbCsv_unclosed_quote :
    parseDkbCsv "m1\nm2\nm3\nm4\nA;\"unclosed" = .error "Quote Not Closed" :=
  rfl

/-!
The claim theorems.
-/

/-- Claim C1: two input rows that are identical except in the
`Kundenreferenz` (customer reference) field produce transactions with the
same `imported_id` — in fact the whole transform output is identical —
because `generateImportedId` takes only four parameters, so the fifth
argument of the call site (the trimmed customer reference) is silently
discarded by JavaScript parameter binding and never affects deduplication. -/
theorem customer_reference_never_affects_dedup (row : DkbRawRow)
    (k1 k2 actualAccountId : String) (ownIbans : List String) :
    transformToActualTransactions [{ row with Kundenreferenz := k1 }]
        actualAccountId ownIbans =
      transformToActualTransactions [{ row with Kundenreferenz := k2 }]
        actualAccountId ownIbans := by
  cases row
  rfl

/-- Claim C2 is false as stated: on an input whose line count does not
exceed the four skipped lines `parseDkbCsv` returns an empty row sequence
rather than failing with a `ParseError`, and on an input whose fifth line
(the would-be header) is empty the empty line is skipped and the next
non-empty line is used as the header, again without error. -/
theorem parseDkbCsv_no_failure_counterexample :
    parseDkbCsv "only\ntwo lines" = .ok [] ∧
    parseDkbCsv "m1\nm2\nm3\nm4\n\nA;B\n1;2" =
      .ok [[("A", "1"), ("B", "2")]] := by
  constructor <;> rfl

/-- Claim C2 amended: `parseDkbCsv` does not fail in either case the claim
names — when the number of skipped lines (four) meets or exceeds the
available line count it returns the empty row sequence, and when the header
line (the fifth line) is empty it is dropped by `skip_empty_lines` and
parsing simply continues with the remaining lines, the first non-empty one
becoming the header.  (Other inputs can still fail: the library's quote
errors are preserved by the model, see `parseDkbCsv_unclosed_quote`.) -/
theorem parseDkbCsv_skip_and_empty_header (content : String) :
    ((jsSplit content '\n').length ≤ 4 → parseDkbCsv content = .ok []) ∧
    (∀ rest, (jsSplit content '\n').drop 4 = "" :: rest →
      parseDkbCsv content = csvParse (joinWith "\n" rest)) := by
  constructor
  · intro h
    unfold parseDkbCsv
    dsimp only
    rw [List.drop_eq_nil_of_le h]
    rfl
  · intro rest hr
    unfold parseDkbCsv
    dsimp only
    rw [hr]
    exact csvParse_cons_empty_line rest

/-- Witness for C2's amended theorem: a three-line input yields no rows, and
an input whose fifth line is empty parses exactly like the lines after it. -/
theorem parseDkbCsv_skip_and_empty_header_witness :
    parseDkbCsv "a\nb\nc" = .ok [] ∧
    parseDkbCsv "m1\nm2\nm3\nm4\n\nA;B\n1;2" =
      csvParse (joinWith "\n" ["A;B", "1;2"]) :=
  ⟨(parseDkbCsv_skip_and_empty_header "a\nb\nc").1 (by decide),
   (parseDkbCsv_skip_and_empty_header "m1\nm2\nm3\nm4\n\nA;B\n1;2").2
     ["A;B", "1;2"] (by decide)⟩

set_option maxHeartbeats 4000000 in
set_option maxRecDepth 8000 in
/-- Claim C3 is false as stated: two rows whose payer fields are `"Alice"`
and `"Alice "` produce transactions that agree on `date`, `amount`,
`payee_name` and `notes` (the emitted payee name is trimmed), yet their
`imported_id`s differ, because the hash input uses the payee name before the
final trim. -/
theorem dedupId_not_function_of_transaction_fields :
    (transformToActualTransactions [aliceRow] "acc" []).toOption.map
        (List.map fun t => (t.date, t.amount, t.payee_name, t.notes)) =
      (transformToActualTransactions [aliceRowTrailingSpace] "acc"
          []).toOption.map
        (List.map fun t => (t.date, t.amount, t.payee_name, t.notes)) ∧
    (transformToActualTransactions [aliceRow] "acc" []).toOption.map
        (List.map fun t => t.imported_id) ≠
      (transformToActualTransactions [aliceRowTrailingSpace] "acc"
          []).toOption.map (List.map fun t => t.imported_id) := by
  constructor
  · with_unfolding_all rfl
  · with_unfolding_all decide

/-- Claim C3 amended: `imported_id` is a pure function of the canonical
date, the integer amount, the resolved payee name as computed before the
final trim, and the notes — two parsed rows agreeing on those four values
(from any rows, accounts or own-IBAN sets) receive equal `imported_id`s; in
particular assembling the same row twice yields an identical id. -/
theorem dedupId_function_of_pretrim_fields
    (row1 row2 : DkbRawRow) (acc1 acc2 : String) (own1 own2 : List String)
    {f1 f2 : ℚ} {d1 d2 : String}
    (hs1 : skipRow row1 = false)
    (hf1 : parseGermanDecimal row1.Betrag = .ok f1)
    (hd1 : parseGermanDate row1.Buchungsdatum = .ok d1)
    (hs2 : skipRow row2 = false)
    (hf2 : parseGermanDecimal row2.Betrag = .ok f2)
    (hd2 : parseGermanDate row2.Buchungsdatum = .ok d2)
    (hdate : d1 = d2)
    (hamount : amountToInteger f1 = amountToInteger f2)
    (hpayee : resolvePayeeName row1 own1 f1 = resolvePayeeName row2 own2 f2)
    (hnotes : jsOr row1.Verwendungszweck "" = jsOr row2.Verwendungszweck "") :
    ∃ t1 t2, transformToActualTransactions [row1] acc1 own1 = .ok [t1] ∧
      transformToActualTransactions [row2] acc2 own2 = .ok [t2] ∧
      t1.imported_id = t2.imported_id := by
  refine ⟨_, _, transform_singleton acc1 own1 hs1 hf1 hd1,
    transform_singleton acc2 own2 hs2 hf2 hd2, ?_⟩
  simp only [mkTransaction]
  rw [hdate, hamount, hpayee, hnotes]

/-- Witness for C3's amended theorem: the same row assembled twice (under
different account ids) yields an identical `imported_id`. -/
theorem dedupId_function_of_pretrim_fields_witness :
    ∃ t1 t2,
      transformToActualTransactions [aliceRow] "acc1" [] = .ok [t1] ∧
      transformToActualTransactions [aliceRow] "acc2" [] = .ok [t2] ∧
      t1.imported_id = t2.imported_id :=
  @dedupId_function_of_pretrim_fields aliceRow aliceRow
    "acc1" "acc2" [] [] 5 5 "2024-03-05" "2024-03-05"
    (by rfl) (by with_unfolding_all rfl) (by rfl)
    (by rfl) (by with_unfolding_all rfl) (by rfl)
    rfl rfl rfl rfl

/-- Claim C4 is false as stated: JavaScript `Math.round` resolves ties
toward `+∞`, not away from zero.  At the value `-0.125` (exactly
representable as a double, with `-0.125 * 100 = -12.5` exact) the source
computes `-12`, while ties-away-from-zero rounding yields `-13`. -/
theorem amountToInteger_not_ties_away :
    amountToInteger (-1 / 8) = -12 ∧ specToMinorUnits (-1 / 8) = -13 := by
  constructor <;> with_unfolding_all rfl

/-- Claim C4 amended: `amountToInteger` multiplies by 100 and rounds to the
nearest integer with ties resolved toward `+∞` (JavaScript `Math.round`):
the result is within one half of the scaled value, it is the unique integer
strictly within one half, and an exact tie `k + 1/2` rounds up to `k + 1`.
The claim's example `toMinorUnits(-12.50) == -1250` does hold (no tie is
involved); see the witness. -/
theorem amountToInteger_rounds_half_up (value : ℚ) :
    |(amountToInteger value : ℚ) - value * 100| ≤ 1 / 2 ∧
    (∀ m : ℤ, |(m : ℚ) - value * 100| < 1 / 2 → m = amountToInteger value) ∧
    (∀ k : ℤ, value * 100 = k + 1 / 2 → amountToInteger value = k + 1) := by
  rw [amountToInteger_eq_floor]
  have h1 := Int.floor_le (value * 100 + 1 / 2)
  have h2 := Int.lt_floor_add_one (value * 100 + 1 / 2)
  refine ⟨?_, ?_, ?_⟩
  · rw [abs_le]
    constructor <;> linarith
  · intro m hm
    rw [abs_lt] at hm
    symm
    rw [Int.floor_eq_iff]
    constructor
    · linarith [hm.1]
    · linarith [hm.2]
  · intro k hk
    have : (value * 100 + 1 / 2 : ℚ) = ((k + 1 : ℤ) : ℚ) := by
      push_cast
      linarith
    rw [this, Int.floor_intCast]

/-- Witness for C4's amended theorem at `value = -12.50`: the claim's own
example `toMinorUnits(-12.50) == -1250`. -/
theorem amountToInteger_rounds_half_up_witness :
    amountToInteger (-25 / 2) = -1250 :=
  ((amountToInteger_rounds_half_up (-25 / 2)).2.1 (-1250) (by norm_num)).symm

/-- Claim C5: the `imported_id` of every emitted transaction is the first 32
hexadecimal characters of the SHA-256 hash of the canonical date, the
integer amount, the resolved payee name (before the final trim) and the
notes, joined by `"|"` in that order; consequently it is always a
32-character lower-case hex string. -/
theorem imported_id_is_truncated_sha256
    (row : DkbRawRow) (acc : String) (own : List String) {f : ℚ} {d : String}
    (hskip : skipRow row = false)
    (hf : parseGermanDecimal row.Betrag = .ok f)
    (hd : parseGermanDate row.Buchungsdatum = .ok d) :
    ∃ tx, transformToActualTransactions [row] acc own = .ok [tx] ∧
      tx.imported_id = String.mk ((sha256HexChars (utf8Bytes
        (d ++ "|" ++ toString (amountToInteger f) ++ "|" ++
          resolvePayeeName row own f ++ "|" ++
          jsOr row.Verwendungszweck ""))).take 32) ∧
      tx.imported_id.length = 32 ∧
      (∀ c ∈ tx.imported_id.data, isHexDigitChar c = true) := by
  refine ⟨_, transform_singleton acc own hskip hf hd, ?_, ?_, ?_⟩
  · rw [mkTransaction_imported_id, generateImportedId_eq]
  · rw [mkTransaction_imported_id, generateImportedId_eq]
    show (List.take 32 (sha256HexChars _)).length = 32
    rw [List.length_take, sha256HexChars_length]
    rfl
  · intro c hc
    rw [mkTransaction_imported_id, generateImportedId_eq] at hc
    exact mem_sha256HexChars_hex (List.take_subset _ _ hc)

/-- Witness for C5 at the concrete Alice row. -/
theorem imported_id_is_truncated_sha256_witness :
    ∃ tx, transformToActualTransactions [aliceRow] "acc" [] = .ok [tx] ∧
      tx.imported_id = String.mk ((sha256HexChars (utf8Bytes
        ("2024-03-05" ++ "|" ++ toString (amountToInteger 5) ++ "|" ++
          resolvePayeeName aliceRow [] 5 ++ "|" ++
          jsOr aliceRow.Verwendungszweck ""))).take 32) ∧
      tx.imported_id.length = 32 ∧
      (∀ c ∈ tx.imported_id.data, isHexDigitChar c = true) :=
  @imported_id_is_truncated_sha256 aliceRow "acc" [] 5 "2024-03-05"
    (by rfl) (by with_unfolding_all rfl) (by rfl)

/-- Claim C6 is false as it stands in one corner: when the counterpart IBAN
field trims to the empty string and the empty string happens to be a member
of `ownIbans`, the masking branch does not fire (it requires a non-empty
trimmed IBAN), so the payee name comes from the payer field and differs from
the upper-cased (empty) counterpart IBAN. -/
theorem own_iban_masking_counterexample :
    jsTrim ({ aliceRow with IBAN := " " } : DkbRawRow).IBAN = "" ∧
    (("" : String) ∈ [("" : String)]) ∧
    (transformToActualTransactions [{ aliceRow with IBAN := " " }] "acc"
        [""]).toOption.map (List.map fun t => t.payee_name) =
      some ["Alice"] ∧
    ("Alice" : String) ≠
      upStr (jsTrim ({ aliceRow with IBAN := " " } : DkbRawRow).IBAN) := by
  refine ⟨rfl, by decide, by with_unfolding_all rfl, by decide⟩

/-- Claim C6 amended: for every row whose trimmed counterpart IBAN is
non-empty and a member of `ownIbans`, the emitted payee name is the
upper-cased counterpart IBAN, regardless of the contents of the payer and
recipient fields (the theorem makes no hypothesis about them). -/
theorem own_iban_masking
    (row : DkbRawRow) (acc : String) (own : List String) {f : ℚ} {d : String}
    (hskip : skipRow row = false)
    (hf : parseGermanDecimal row.Betrag = .ok f)
    (hd : parseGermanDate row.Buchungsdatum = .ok d)
    (hne : counterpartIbanOf row ≠ "")
    (hmem : counterpartIbanOf row ∈ own) :
    ∃ tx, transformToActualTransactions [row] acc own = .ok [tx] ∧
      tx.payee_name = upStr (counterpartIbanOf row) := by
  refine ⟨_, transform_singleton acc own hskip hf hd, ?_⟩
  have hown : isOwnAccount row own = true := by
    simp [isOwnAccount, hne, hmem]
  rw [mkTransaction_payee_name]
  have hres : resolvePayeeName row own f = upStr (counterpartIbanOf row) := by
    simp [resolvePayeeName, hown]
  rw [hres]
  exact jsTrim_upStr_jsTrim row.IBAN

/-- Witness for C6's amended theorem: counterpart IBAN `" de12 "`, own-IBAN
set `["de12"]`, payee name `"DE12"`. -/
theorem own_iban_masking_witness :
    ∃ tx, transformToActualTransactions [{ aliceRow with IBAN := " de12 " }]
        "acc" ["de12"] = .ok [tx] ∧
      tx.payee_name =
        upStr (counterpartIbanOf { aliceRow with IBAN := " de12 " }) :=
  @own_iban_masking { aliceRow with IBAN := " de12 " } "acc" ["de12"]
    5 "2024-03-05" (by rfl) (by with_unfolding_all rfl) (by rfl)
    (by decide) (by decide)

/-- Claim C7: for every row not masked as an own-account transfer, the payee
resolution is sign-driven with fallback: a negative signed amount prefers
the recipient field, falling back to the payer field when the recipient is
empty; a non-negative amount prefers the payer field, falling back to the
recipient; the empty string results when both are empty.  The emitted
`payee_name` is the trimmed resolved name. -/
theorem sign_based_payee_fallback
    (row : DkbRawRow) (acc : String) (own : List String) {f : ℚ} {d : String}
    (hskip : skipRow row = false)
    (hf : parseGermanDecimal row.Betrag = .ok f)
    (hd : parseGermanDate row.Buchungsdatum = .ok d)
    (hnotown : isOwnAccount row own = false) :
    ∃ tx, transformToActualTransactions [row] acc own = .ok [tx] ∧
      tx.payee_name = jsTrim (getOpposingName row f) ∧
      (f < 0 → getOpposingName row f =
        (if row.Zahlungsempfaenger_in ≠ "" then row.Zahlungsempfaenger_in
         else if row.Zahlungspflichtige_r ≠ "" then row.Zahlungspflichtige_r
         else "")) ∧
      (0 ≤ f → getOpposingName row f =
        (if row.Zahlungspflichtige_r ≠ "" then row.Zahlungspflichtige_r
         else if row.Zahlungsempfaenger_in ≠ "" then row.Zahlungsempfaenger_in
         else "")) := by
  refine ⟨_, transform_singleton acc own hskip hf hd, ?_, ?_, ?_⟩
  · rw [mkTransaction_payee_name]
    simp [resolvePayeeName, hnotown]
  · intro hneg
    rw [getOpposingName, if_pos hneg]
    by_cases h1 : row.Zahlungsempfaenger_in = "" <;>
      by_cases h2 : row.Zahlungspflichtige_r = "" <;> simp [jsOr, h1, h2]
  · intro hpos
    rw [getOpposingName, if_neg (not_lt.mpr hpos)]
    by_cases h1 : row.Zahlungspflichtige_r = "" <;>
      by_cases h2 : row.Zahlungsempfaenger_in = "" <;> simp [jsOr, h1, h2]

/-- Witness for C7 at a concrete outgoing row: amount `-5,00`, recipient
empty, payer `"Alice"`; the resolved payee falls back to `"Alice"`. -/
theorem sign_based_payee_fallback_witness :
    ∃ tx, transformToActualTransactions [{ aliceRow with Betrag := "-5,00" }]
        "acc" [] = .ok [tx] ∧
      tx.payee_name =
        jsTrim (getOpposingName { aliceRow with Betrag := "-5,00" } (-5)) ∧
      ((-5 : ℚ) < 0 → getOpposingName { aliceRow with Betrag := "-5,00" } (-5) =
        (if ({ aliceRow with Betrag := "-5,00" } : DkbRawRow).Zahlungsempfaenger_in ≠ ""
         then ({ aliceRow with Betrag := "-5,00" } : DkbRawRow).Zahlungsempfaenger_in
         else if ({ aliceRow with Betrag := "-5,00" } : DkbRawRow).Zahlungspflichtige_r ≠ ""
         then ({ aliceRow with Betrag := "-5,00" } : DkbRawRow).Zahlungspflichtige_r
         else "")) ∧
      ((0 : ℚ) ≤ -5 → getOpposingName { aliceRow with Betrag := "-5,00" } (-5) =
        (if ({ aliceRow with Betrag := "-5,00" } : DkbRawRow).Zahlungspflichtige_r ≠ ""
         then ({ aliceRow with Betrag := "-5,00" } : DkbRawRow).Zahlungspflichtige_r
         else if ({ aliceRow with Betrag := "-5,00" } : DkbRawRow).Zahlungsempfaenger_in ≠ ""
         then ({ aliceRow with Betrag := "-5,00" } : DkbRawRow).Zahlungsempfaenger_in
         else "")) :=
  @sign_based_payee_fallback { aliceRow with Betrag := "-5,00" } "acc" []
    (-5) "2024-03-05" (by rfl) (by with_unfolding_all rfl) (by rfl) (by rfl)

/-- Claim C8 is false as stated: the amount string `"0,001"` parses to the
positive value `1/1000`, but the emitted integer amount is
`Math.round(0.1) = 0` — zero, not positive, so the sign is not preserved for
sub-half-minor-unit values. -/
theorem amount_sign_counterexample :
    parseGermanDecimal "0,001" = .ok (1 / 1000) ∧
    ((0 : ℚ) < 1 / 1000) ∧
    (transformToActualTransactions [{ aliceRow with Betrag := "0,001" }] "a"
        []).toOption.map (List.map fun t => t.amount) = some [0] := by
  refine ⟨by with_unfolding_all rfl, by norm_num, by with_unfolding_all rfl⟩

/-- Claim C8 amended: the emitted integer amount never has the opposite sign
of the parsed decimal value, and whenever the parsed value is a whole number
of minor units (`value * 100` integral — every real DKB amount, which has at
most two decimals) the signs agree exactly; a non-zero value smaller than
half a minor unit in magnitude rounds to zero. -/
theorem amount_sign_preserved
    (row : DkbRawRow) (acc : String) (own : List String) {f : ℚ} {d : String}
    (hskip : skipRow row = false)
    (hf : parseGermanDecimal row.Betrag = .ok f)
    (hd : parseGermanDate row.Buchungsdatum = .ok d) :
    ∃ tx, transformToActualTransactions [row] acc own = .ok [tx] ∧
      (0 ≤ f → 0 ≤ tx.amount) ∧
      (f ≤ 0 → tx.amount ≤ 0) ∧
      (∀ k : ℤ, f * 100 = k →
        ((0 < f ↔ 0 < tx.amount) ∧ (f < 0 ↔ tx.amount < 0) ∧
          (f = 0 ↔ tx.amount = 0))) := by
  refine ⟨_, transform_singleton acc own hskip hf hd, ?_, ?_, ?_⟩
  · intro h0
    rw [mkTransaction_amount, amountToInteger_eq_floor]
    apply Int.le_floor.mpr
    push_cast
    linarith
  · intro h0
    rw [mkTransaction_amount]
    have h1 : amountToInteger f < 1 := by
      rw [amountToInteger_eq_floor]
      apply Int.floor_lt.mpr
      push_cast
      linarith
    omega
  · intro k hk
    have hak : (mkTransaction row acc own f d).amount = k := by
      rw [mkTransaction_amount, amountToInteger_eq_floor]
      have h2 : (f * 100 + 1 / 2 : ℚ) = (k : ℚ) + 1 / 2 := by rw [hk]
      rw [h2, Int.floor_eq_iff]
      constructor
      · linarith
      · linarith
    rw [hak]
    have hcast : f = (k : ℚ) / 100 := by
      field_simp
      linarith [hk]
    refine ⟨?_, ?_, ?_⟩
    · rw [hcast]
      constructor
      · intro h
        have : (0 : ℚ) < k := by linarith
        exact_mod_cast this
      · intro h
        have : (0 : ℚ) < k := by exact_mod_cast h
        linarith
    · rw [hcast]
      constructor
      · intro h
        have : (k : ℚ) < 0 := by linarith
        exact_mod_cast this
      · intro h
        have : (k : ℚ) < 0 := by exact_mod_cast h
        linarith
    · rw [hcast]
      constructor
      · intro h
        have : (k : ℚ) = 0 := by linarith
        exact_mod_cast this
      · intro h
        have : (k : ℚ) = 0 := by exact_mod_cast h
        linarith

/-- Witness for C8's amended theorem at the outgoing row `-5,00`
(`f = -5`, `k = -500`). -/
theorem amount_sign_preserved_witness :
    ∃ tx, transformToActualTransactions [{ aliceRow with Betrag := "-5,00" }]
        "acc" [] = .ok [tx] ∧
      ((0 : ℚ) ≤ -5 → 0 ≤ tx.amount) ∧
      ((-5 : ℚ) ≤ 0 → tx.amount ≤ 0) ∧
      (∀ k : ℤ, (-5 : ℚ) * 100 = k →
        (((0 : ℚ) < -5 ↔ 0 < tx.amount) ∧ ((-5 : ℚ) < 0 ↔ tx.amount < 0) ∧
          ((-5 : ℚ) = 0 ↔ tx.amount = 0))) :=
  @amount_sign_preserved { aliceRow with Betrag := "-5,00" } "acc" []
    (-5) "2024-03-05" (by rfl) (by with_unfolding_all rfl) (by rfl)

/-- Claim C9: a row whose amount field or booking-date field is empty is
skipped without error, and every other row whose amount and date parse
successfully contributes exactly one transaction: under the hypothesis that
each row either satisfies the skip guard or parses, the transform succeeds
and returns exactly one transaction per non-skipped row. -/
theorem skip_rows_silently_dropped
    (rows : List DkbRawRow) (acc : String) (own : List String)
    (h : ∀ row ∈ rows, skipRow row = true ∨
      ((∃ fq, parseGermanDecimal row.Betrag = .ok fq) ∧
        (∃ ds, parseGermanDate row.Buchungsdatum = .ok ds))) :
    ∃ txs, transformToActualTransactions rows acc own = .ok txs ∧
      txs.length = (rows.filter fun r => !skipRow r).length := by
  induction rows with
  | nil => exact ⟨[], rfl, rfl⟩
  | cons row rest ih =>
    obtain ⟨txs, htxs, hlen⟩ := ih fun r hr => h r (List.mem_cons_of_mem _ hr)
    rcases h row (List.mem_cons_self _ _) with hskip | ⟨⟨fq, hfq⟩, ⟨ds, hds⟩⟩
    · refine ⟨txs, ?_, ?_⟩
      · rw [transform_cons_skip rest acc own hskip, htxs]
      · simp [List.filter_cons, hskip, hlen]
    · have hs : skipRow row = false := by
        unfold skipRow
        by_cases hb : row.Betrag = ""
        · rw [hb, show parseGermanDecimal "" =
            Except.error "Cannot parse amount: \"\"" from rfl] at hfq
          exact absurd hfq (by simp)
        · by_cases hbd : row.Buchungsdatum = ""
          · rw [hbd, show parseGermanDate "" =
              Except.error "Cannot parse date: \"\"" from rfl] at hds
            exact absurd hds (by simp)
          · simp [hb, hbd]
      refine ⟨mkTransaction row acc own fq ds :: txs, ?_, ?_⟩
      · rw [transform_cons_ok rest acc own hs hfq hds, htxs]
        rfl
      · simp [List.filter_cons, hs, hlen]

/-- Witness for C9: a summary row with an empty amount is skipped, the
Alice row contributes one transaction, and no error is raised. -/
theorem skip_rows_silently_dropped_witness :
    ∃ txs, transformToActualTransactions
        [{ aliceRow with Betrag := "" }, aliceRow] "acc" [] = .ok txs ∧
      txs.length =
        ([{ aliceRow with Betrag := "" }, aliceRow].filter
          fun r => !skipRow r).length :=
  skip_rows_silently_dropped [{ aliceRow with Betrag := "" }, aliceRow]
    "acc" []
    (by
      intro r hr
      simp only [List.mem_cons, List.not_mem_nil, or_false] at hr
      rcases hr with rfl | rfl
      · exact Or.inl rfl
      · exact Or.inr ⟨⟨5, by with_unfolding_all rfl⟩, ⟨"2024-03-05", rfl⟩⟩)

/-- Claim C10: a row whose counterpart IBAN trims to the empty string is
never masked as an own-account transfer — even when the empty string is an
element of `ownIbans` — its payee is resolved by the sign-based fallback,
and its `imported_payee` is exactly the payee name, with no parenthesised
IBAN suffix. -/
theorem empty_iban_never_masked
    (row : DkbRawRow) (acc : String) (own : List String) {f : ℚ} {d : String}
    (hskip : skipRow row = false)
    (hf : parseGermanDecimal row.Betrag = .ok f)
    (hd : parseGermanDate row.Buchungsdatum = .ok d)
    (hiban : jsTrim row.IBAN = "") :
    ∃ tx, transformToActualTransactions [row] acc own = .ok [tx] ∧
      tx.payee_name = jsTrim (getOpposingName row f) ∧
      tx.imported_payee = tx.payee_name := by
  have hown : isOwnAccount row own = false := by
    simp [isOwnAccount, counterpartIbanOf, hiban]
  have hres : resolvePayeeName row own f = getOpposingName row f := by
    simp [resolvePayeeName, hown]
  refine ⟨_, transform_singleton acc own hskip hf hd, ?_, ?_⟩
  · rw [mkTransaction_payee_name, hres]
  · rw [mkTransaction_imported_payee, mkTransaction_payee_name]
    have himp : importedPayeeOf row (resolvePayeeName row own f) =
        resolvePayeeName row own f := by
      simp [importedPayeeOf, counterpartIbanOf, hiban]
    rw [himp]

/-- Witness for C10: IBAN `"  "` trims to empty while `""` is in the
own-IBAN set; the payee falls back to `"Alice"` and `imported_payee` has no
IBAN suffix. -/
theorem empty_iban_never_masked_witness :
    ∃ tx, transformToActualTransactions [{ aliceRow with IBAN := "  " }]
        "acc" [""] = .ok [tx] ∧
      tx.payee_name =
        jsTrim (getOpposingName { aliceRow with IBAN := "  " } 5) ∧
      tx.imported_payee = tx.payee_name :=
  @empty_iban_never_masked { aliceRow with IBAN := "  " } "acc" [""]
    5 "2024-03-05" (by rfl) (by with_unfolding_all rfl) (by rfl) (by rfl)

end Dkb2Actual
